import Mathlib

/-!
# Verification of the incremental rebuild decision core (`fingerprint.rs`)

Shallow embedding of `src/cargo/core/compiler/fingerprint.rs`: the
`Fingerprint` record, its `Hash` implementation, serde round-trip for the
persisted JSON record, the `compare` diagnostic, the mtime prober
`find_stale_file`, the dep-info codec (`translate_dep_info` record framing and
`parse_dep_info`), `check_filesystem`, and the freshness decision of
`prepare_target` / `compare_old_fingerprint`.

Filesystem paths are modelled as byte strings (`List Nat`), a filesystem as a
partial map from paths to mtimes (`Path → Option Nat`) and to file contents
(`Path → Option (List Nat)`).  Machine timestamps (`FileTime`) are modelled as
`Nat` with their strict order.  Fallible Rust code (`CargoResult`) is modelled
with `Except String`.
-/

/-- A filesystem path, as the byte string the OS sees (`PathBuf`). -/
abbrev FPath := List Nat

/-- `LocalFingerprint` (fingerprint.rs lines 636-675): tagged description of
unit-local inputs. -/
inductive LocalFingerprint where
  | Precalculated (s : String)
  | CheckDepInfo (dep_info : FPath)
  | RerunIfChanged (output : FPath) (paths : List FPath)
  | RerunIfEnvChanged (var : String) (val : Option String)
deriving DecidableEq, Repr

/-- `FsStatus` (lines 555-564): filesystem status of a unit; `UpToDate` carries
the map from output path to mtime (modelled as an association list). -/
inductive FsStatus where
  | Stale
  | UpToDate (mtimes : List (FPath × Nat))
deriving DecidableEq, Repr

/-- `FsStatus::up_to_date` (lines 567-572). -/
def FsStatus.up_to_date : FsStatus → Bool
  | .UpToDate _ => true
  | .Stale => false

/-- The non-recursive data of a `DepFingerprint` edge (lines 471-487):
everything except the shared handle to the dependency's `Fingerprint`. -/
structure DepEdge where
  pkg_id : Nat
  name : String
  public : Bool
  only_requires_rmeta : Bool
deriving DecidableEq, Repr

mutual

/-- `Fingerprint` (lines 511-552), fields in source order.  `memoized_hash`
models the `Mutex<Option<u64>>` slot; `locals` models the
`Mutex<Vec<LocalFingerprint>>` field `local` with the lock erased. -/
inductive Fingerprint where
  | mk (rustc : Nat) (features : String) (target : Nat) (profile : Nat)
      (path : Nat) (deps : DepList) (locals : List LocalFingerprint)
      (memoized_hash : Option Nat) (rustflags : List String) (metadata : Nat)
      (config : Nat) (fs_status : FsStatus) (outputs : List FPath)

/-- `Vec<DepFingerprint>`: each element is a `DepEdge` plus the `Arc` handle to
the dependency's `Fingerprint` (a bespoke list so that recursion over the
record stays structural). -/
inductive DepList where
  | nil
  | cons (edge : DepEdge) (fp : Fingerprint) (rest : DepList)

end

def DepList.length : DepList → Nat
  | .nil => 0
  | .cons _ _ rest => rest.length + 1

def Fingerprint.rustc : Fingerprint → Nat
  | .mk r _ _ _ _ _ _ _ _ _ _ _ _ => r

def Fingerprint.features : Fingerprint → String
  | .mk _ f _ _ _ _ _ _ _ _ _ _ _ => f

def Fingerprint.target : Fingerprint → Nat
  | .mk _ _ t _ _ _ _ _ _ _ _ _ _ => t

def Fingerprint.profile : Fingerprint → Nat
  | .mk _ _ _ p _ _ _ _ _ _ _ _ _ => p

def Fingerprint.path : Fingerprint → Nat
  | .mk _ _ _ _ p _ _ _ _ _ _ _ _ => p

def Fingerprint.deps : Fingerprint → DepList
  | .mk _ _ _ _ _ d _ _ _ _ _ _ _ => d

def Fingerprint.locals : Fingerprint → List LocalFingerprint
  | .mk _ _ _ _ _ _ l _ _ _ _ _ _ => l

def Fingerprint.memoized_hash : Fingerprint → Option Nat
  | .mk _ _ _ _ _ _ _ m _ _ _ _ _ => m

def Fingerprint.rustflags : Fingerprint → List String
  | .mk _ _ _ _ _ _ _ _ r _ _ _ _ => r

def Fingerprint.metadata : Fingerprint → Nat
  | .mk _ _ _ _ _ _ _ _ _ m _ _ _ => m

def Fingerprint.config : Fingerprint → Nat
  | .mk _ _ _ _ _ _ _ _ _ _ c _ _ => c

def Fingerprint.fs_status : Fingerprint → FsStatus
  | .mk _ _ _ _ _ _ _ _ _ _ _ s _ => s

def Fingerprint.outputs : Fingerprint → List FPath
  | .mk _ _ _ _ _ _ _ _ _ _ _ _ o => o

/-- `Fingerprint::new` (lines 743-759). -/
def Fingerprint.new : Fingerprint :=
  .mk 0 "" 0 0 0 .nil [] none [] 0 0 .Stale []

/-- Replace the `local` list (the assignment
`*fingerprint.local.lock().unwrap() = new_local`). -/
def Fingerprint.withLocals (f : Fingerprint) (l : List LocalFingerprint) :
    Fingerprint :=
  match f with
  | .mk a b c d e dp _lo m r md cf s o => .mk a b c d e dp l m r md cf s o

/-- Set the `memoized_hash` slot. -/
def Fingerprint.withMemo (f : Fingerprint) (m : Option Nat) : Fingerprint :=
  match f with
  | .mk a b c d e dp lo _m r md cf s o => .mk a b c d e dp lo m r md cf s o

/-- Set the `fs_status` field. -/
def Fingerprint.withFsStatus (f : Fingerprint) (s : FsStatus) : Fingerprint :=
  match f with
  | .mk a b c d e dp lo m r md cf _s o => .mk a b c d e dp lo m r md cf s o

/-! ## The hash-input token stream

Rust's `Hasher` consumes a stream of primitive writes.  We model the stream a
`Fingerprint` feeds into the hasher (its `impl hash::Hash`, lines 1042-1079) as
a list of tokens: one token per primitive write, with derive-generated enum
hashing contributing a discriminant token before the variant's fields. -/

inductive HashTok where
  | u64 (n : Nat)
  | usize (n : Nat)
  | bool (b : Bool)
  | str (s : String)
  | path (p : FPath)
  | discr (n : Nat)
deriving DecidableEq, Repr

/-- Hash tokens of one `LocalFingerprint` (its derived `Hash`): variant
discriminant, then the fields. -/
def LocalFingerprint.toks : LocalFingerprint → List HashTok
  | .Precalculated s => [.discr 0, .str s]
  | .CheckDepInfo p => [.discr 1, .path p]
  | .RerunIfChanged out paths =>
      [.discr 2, .path out, .usize paths.length] ++ paths.map .path
  | .RerunIfEnvChanged var val =>
      [.discr 3, .str var] ++
        (match val with
         | none => [.discr 0]
         | some v => [.discr 1, .str v])

/-- Hash tokens of a `Vec<LocalFingerprint>`: length prefix then elements. -/
def localListToks (l : List LocalFingerprint) : List HashTok :=
  .usize l.length :: l.flatMap LocalFingerprint.toks

/-- Hash tokens of a `Vec<String>`: length prefix then elements. -/
def strListToks (l : List String) : List HashTok :=
  .usize l.length :: l.map .str

/-- Stand-in for the external 64-bit `util::hash_u64` (SipHash, outside src/):
an arbitrary concrete 64-bit hash of the token stream.  Every theorem below
depends only on it being a deterministic function of the stream. -/
def hashU64 (l : List HashTok) : Nat :=
  (l.flatMap fun t =>
      match t with
      | .u64 n => [0, n % 2 ^ 64]
      | .usize n => [1, n % 2 ^ 64]
      | .bool b => [2, cond b 1 0]
      | .str s => 3 :: (s.toList.map Char.toNat ++ [256])
      | .path p => 4 :: (p ++ [256])
      | .discr n => [5, n]).foldl
    (fun a b => (a * 1099511628211 + b) % 2 ^ 64) 14695981039346656037

/-- The hash tokens of the tuple
`(rustc, features, target, path, profile, &*local, metadata, config,
rustflags)` — the first group the `Hash` implementation feeds the hasher
(line 1058), before the dependency section. -/
def scalarToks (rustc : Nat) (features : String) (target path profile : Nat)
    (locals : List LocalFingerprint) (metadata config : Nat)
    (rustflags : List String) : List HashTok :=
  [.u64 rustc, .str features, .u64 target, .u64 path, .u64 profile] ++
    localListToks locals ++ [.u64 metadata, .u64 config] ++
    strListToks rustflags

mutual

/-- The hash-input stream of a `Fingerprint` per its `impl hash::Hash`
(lines 1042-1079): the scalar tuple, then `h.write_usize(deps.len())`, then
the dependency section; `only_requires_rmeta` is skipped. -/
def Fingerprint.hashInput : Fingerprint → List HashTok
  | .mk rustc features target profile path deps locals _memo rustflags metadata
      config _fs _outs =>
    scalarToks rustc features target path profile locals metadata config
        rustflags ++ (.usize deps.length :: depListToks deps)

/-- The dependency section of the stream: for each `DepFingerprint` in order,
`pkg_id.hash(h); name.hash(h); public.hash(h);
h.write_u64(Fingerprint::hash(fingerprint))` (lines 1063-1077), where
`Fingerprint::hash` returns the memoized hash when the slot is filled and
`util::hash_u64(self)` otherwise. -/
def depListToks : DepList → List HashTok
  | .nil => []
  | .cons e fp rest =>
      [.u64 e.pkg_id, .str e.name, .bool e.public,
        .u64 (match fp.memoized_hash with
              | some s => s
              | none => hashU64 fp.hashInput)] ++
        depListToks rest

end

/-- `Fingerprint::hash` as a value (lines 771-778): the memoized hash when the
slot is filled, otherwise `util::hash_u64(self)` over the hash-input stream. -/
def Fingerprint.hashValue (f : Fingerprint) : Nat :=
  match f.memoized_hash with
  | some s => s
  | none => hashU64 f.hashInput

theorem depListToks_cons (e : DepEdge) (fp : Fingerprint) (rest : DepList) :
    depListToks (.cons e fp rest) =
      [.u64 e.pkg_id, .str e.name, .bool e.public, .u64 fp.hashValue] ++
        depListToks rest := rfl

example : Fingerprint.new.hashValue = hashU64 Fingerprint.new.hashInput := by
  rfl

/-- The composite hash of a record: `util::hash_u64` over the record's
hash-input stream (the value `memoized_hash` caches, cf. lines 771-778). -/
def Fingerprint.compositeHash (f : Fingerprint) : Nat :=
  hashU64 f.hashInput

def DepList.toList : DepList → List (DepEdge × Fingerprint)
  | .nil => []
  | .cons e fp rest => (e, fp) :: rest.toList

/-! ## Persistence: serde serialization of `Fingerprint`

`#[derive(Serialize, Deserialize)]` on `Fingerprint` (line 510) persists every
field except the three marked `#[serde(skip)]`: `memoized_hash`, `fs_status`
and `outputs`.  `DepFingerprint` has hand-written impls (lines 581-616)
serializing the tuple `(pkg_id, name, public, fingerprint.hash())`. -/

/-- `impl Serialize for DepFingerprint` (lines 581-594), element-wise. -/
def serializeDeps : DepList → List (Nat × String × Bool × Nat)
  | .nil => []
  | .cons e fp rest => (e.pkg_id, e.name, e.public, fp.hashValue) ::
      serializeDeps rest

/-- The persisted form of a `Fingerprint`: exactly the serde-visible fields. -/
structure SerFingerprint where
  rustc : Nat
  features : String
  target : Nat
  profile : Nat
  path : Nat
  deps : List (Nat × String × Bool × Nat)
  locals : List LocalFingerprint
  rustflags : List String
  metadata : Nat
  config : Nat
deriving DecidableEq, Repr

/-- Serialization of a `Fingerprint` (derive on lines 510-552). -/
def Fingerprint.serialize : Fingerprint → SerFingerprint
  | .mk r fe t pr pa deps lo _m ru me co _fs _ou =>
    ⟨r, fe, t, pr, pa, serializeDeps deps, lo, ru, me, co⟩

/-- `impl Deserialize for DepFingerprint` (lines 596-615): the dependency's
fingerprint is `Fingerprint::new()` with only `memoized_hash` set to the
stored hash, and `only_requires_rmeta` is `false`. -/
def deserializeDep (d : Nat × String × Bool × Nat) : DepEdge × Fingerprint :=
  (⟨d.1, d.2.1, d.2.2.1, false⟩, Fingerprint.new.withMemo (some d.2.2.2))

def deserializeDeps : List (Nat × String × Bool × Nat) → DepList
  | [] => .nil
  | d :: rest =>
      .cons (deserializeDep d).1 (deserializeDep d).2 (deserializeDeps rest)

/-- Deserialization of a persisted `Fingerprint`: serde-skipped fields take
their defaults (`memoized_hash = None`, `fs_status = Stale`,
`outputs = vec![]`). -/
def SerFingerprint.deserialize (s : SerFingerprint) : Fingerprint :=
  .mk s.rustc s.features s.target s.profile s.path (deserializeDeps s.deps)
    s.locals none s.rustflags s.metadata s.config .Stale []

theorem depListToks_deserialize_serialize :
    (d : DepList) → depListToks (deserializeDeps (serializeDeps d)) =
      depListToks d
  | .nil => rfl
  | .cons e fp rest => by
      have ih := depListToks_deserialize_serialize rest
      simp only [serializeDeps, deserializeDeps, depListToks_cons, ih,
        deserializeDep, Fingerprint.hashValue, Fingerprint.new,
        Fingerprint.withMemo, Fingerprint.memoized_hash]

theorem length_deserialize_serialize :
    (d : DepList) → (deserializeDeps (serializeDeps d)).length = d.length
  | .nil => rfl
  | .cons e fp rest => by
      have ih := length_deserialize_serialize rest
      simp only [serializeDeps, deserializeDeps, DepList.length, ih]

/-- **C6.** Persistence round-trip preserves the composite hash: for every
fingerprint record `F`, deserialising the serialised form yields a record with
the same hash-input stream, hence the same composite hash, although
`fs_status`, `outputs` and the memoized-hash slot are not persisted and each
dependency is persisted only as `(pkg_id, name, public, memoised hash)`. -/
theorem serialize_roundtrip_preserves_composite_hash (f : Fingerprint) :
    f.serialize.deserialize.compositeHash = f.compositeHash ∧
      f.serialize.deserialize.hashInput = f.hashInput ∧
      f.serialize.deserialize.memoized_hash = none ∧
      f.serialize.deserialize.fs_status = .Stale ∧
      f.serialize.deserialize.outputs = [] := by
  cases f with
  | mk r fe t pr pa deps lo m ru me co fs ou =>
    refine ⟨?_, ?_, rfl, rfl, rfl⟩ <;>
      simp only [Fingerprint.compositeHash, Fingerprint.serialize,
        SerFingerprint.deserialize, Fingerprint.hashInput,
        depListToks_deserialize_serialize, length_deserialize_serialize]

/-- Rebuilding of dependency edges by a serialize/deserialize round trip: the
edge keeps `pkg_id`, `name`, `public`, gets `only_requires_rmeta = false`, and
the dependency's record is `Fingerprint::new()` with only the stored memoised
hash. -/
def DepList.reload : DepList → DepList
  | .nil => .nil
  | .cons e fp rest =>
      .cons ⟨e.pkg_id, e.name, e.public, false⟩
        (Fingerprint.new.withMemo (some fp.hashValue)) rest.reload

theorem serializeDeps_eq_toList_map :
    (d : DepList) → serializeDeps d =
      d.toList.map (fun p => (p.1.pkg_id, p.1.name, p.1.public, p.2.hashValue))
  | .nil => rfl
  | .cons e fp rest => by
      have ih := serializeDeps_eq_toList_map rest
      simp only [serializeDeps, DepList.toList, List.map_cons, ih]

theorem deserializeDeps_serializeDeps_eq_reload :
    (d : DepList) → deserializeDeps (serializeDeps d) = d.reload
  | .nil => rfl
  | .cons e fp rest => by
      have ih := deserializeDeps_serializeDeps_eq_reload rest
      simp only [serializeDeps, deserializeDeps, DepList.reload,
        deserializeDep, ih]

/-- **C10.** A persisted fingerprint record stores each dependency only as
`(pkg_id, name, public, memoised hash)`, and loading it back yields edges with
`only_requires_rmeta = false` whose fingerprint is entirely default except for
the stored memoised hash. -/
theorem deserialized_deps_are_reloaded_full_edges (f : Fingerprint) :
    f.serialize.deps =
        f.deps.toList.map
          (fun d => (d.1.pkg_id, d.1.name, d.1.public, d.2.hashValue)) ∧
      f.serialize.deserialize.deps = f.deps.reload := by
  cases f with
  | mk r fe t pr pa deps lo m ru me co fs ou =>
    exact ⟨serializeDeps_eq_toList_map deps,
      deserializeDeps_serializeDeps_eq_reload deps⟩

/-! ## C5: the composite hash is a function of the listed fields in order -/

/-- Modelled from the spec's words (§4.4 Hashing): "Deterministic over fields
in this exact order: `rustc, features, target, path, profile, local (snapshot
under its lock), metadata, config, rustflags`, then the dependency count (as
an unsigned machine word), then for each dependency in order `pkg_id, name,
public, composite_hash(dep.fingerprint)` — the dependency's *memoised* hash is
used". -/
def specHashInput (f : Fingerprint) : List HashTok :=
  [.u64 f.rustc, .str f.features, .u64 f.target, .u64 f.path,
      .u64 f.profile] ++
    localListToks f.locals ++ [.u64 f.metadata, .u64 f.config] ++
    strListToks f.rustflags ++ [.usize f.deps.length] ++
    f.deps.toList.flatMap
      (fun d => [.u64 d.1.pkg_id, .str d.1.name, .bool d.1.public,
        .u64 d.2.hashValue])

/-- Overwrite the `only_requires_rmeta` flags of the first edges with the
given booleans, leaving every other component untouched. -/
def DepList.withRmetas : DepList → List Bool → DepList
  | .nil, _ => .nil
  | .cons e fp rest, [] => .cons e fp rest
  | .cons e fp rest, b :: bs =>
      .cons ⟨e.pkg_id, e.name, e.public, b⟩ fp (rest.withRmetas bs)

def Fingerprint.withDepRmetas (f : Fingerprint) (bs : List Bool) :
    Fingerprint :=
  match f with
  | .mk r fe t pr pa deps lo m ru me co fs ou =>
      .mk r fe t pr pa (deps.withRmetas bs) lo m ru me co fs ou

theorem depListToks_withRmetas :
    (d : DepList) → (bs : List Bool) →
      depListToks (d.withRmetas bs) = depListToks d
  | .nil, _ => rfl
  | .cons _ _ _, [] => rfl
  | .cons e fp rest, b :: bs => by
      have ih := depListToks_withRmetas rest bs
      simp only [DepList.withRmetas, depListToks_cons, ih]

theorem length_withRmetas :
    (d : DepList) → (bs : List Bool) → (d.withRmetas bs).length = d.length
  | .nil, _ => rfl
  | .cons _ _ _, [] => rfl
  | .cons e fp rest, b :: bs => by
      have ih := length_withRmetas rest bs
      simp only [DepList.withRmetas, DepList.length, ih]

theorem depListToks_eq_toList_flatMap :
    (d : DepList) → depListToks d =
      d.toList.flatMap
        (fun p => [.u64 p.1.pkg_id, .str p.1.name, .bool p.1.public,
          .u64 p.2.hashValue])
  | .nil => rfl
  | .cons e fp rest => by
      have ih := depListToks_eq_toList_flatMap rest
      simp only [depListToks_cons, DepList.toList, List.flatMap_cons, ih]

/-- **C5.** The hash-input stream of a `Fingerprint` is exactly the spec's
stream: `rustc, features, target, path, profile, local, metadata, config,
rustflags`, the dependency count as a machine word, then per dependency
`pkg_id, name, public` and the dependency's memoised composite hash — and the
`only_requires_rmeta` edge flags contribute nothing. -/
theorem hashInput_follows_spec_order_and_skips_rmeta (f : Fingerprint) :
    f.hashInput = specHashInput f ∧
      ∀ bs : List Bool, (f.withDepRmetas bs).hashInput = f.hashInput := by
  constructor
  · cases f with
    | mk r fe t pr pa deps lo m ru me co fs ou =>
      simp only [Fingerprint.hashInput, specHashInput, scalarToks,
        Fingerprint.rustc, Fingerprint.features, Fingerprint.target,
        Fingerprint.path, Fingerprint.profile, Fingerprint.locals,
        Fingerprint.metadata, Fingerprint.config, Fingerprint.rustflags,
        Fingerprint.deps, depListToks_eq_toList_flatMap, List.append_assoc,
        List.singleton_append, List.cons_append, List.nil_append]
  · intro bs
    cases f with
    | mk r fe t pr pa deps lo m ru me co fs ou =>
      simp only [Fingerprint.withDepRmetas, Fingerprint.hashInput,
        depListToks_withRmetas, length_withRmetas]

/-! ## `Fingerprint::compare`: the dirtiness diagnostic (lines 786-922) -/

/-- `LocalFingerprint::kind` (lines 729-736). -/
def LocalFingerprint.kind : LocalFingerprint → String
  | .Precalculated _ => "precalculated"
  | .CheckDepInfo _ => "dep-info"
  | .RerunIfChanged _ _ => "rerun-if-changed"
  | .RerunIfEnvChanged _ _ => "rerun-if-env-changed"

/-- One step of the per-index `local` comparison of `compare`
(lines 824-888): the first `bail!` message produced for this pair, if any. -/
def localPairReason : LocalFingerprint → LocalFingerprint → Option String
  | .Precalculated a, .Precalculated b =>
      if a ≠ b then
        some ("precalculated components have changed: " ++ a ++ " != " ++ b)
      else none
  | .CheckDepInfo adep, .CheckDepInfo bdep =>
      if adep ≠ bdep then
        some ("dep info output changed: " ++ reprStr adep ++ " != " ++
          reprStr bdep)
      else none
  | .RerunIfChanged aout apaths, .RerunIfChanged bout bpaths =>
      if aout ≠ bout then
        some ("rerun-if-changed output changed: " ++ reprStr aout ++ " != " ++
          reprStr bout)
      else if apaths ≠ bpaths then
        some ("rerun-if-changed output changed: " ++ reprStr apaths ++
          " != " ++ reprStr bpaths)
      else none
  | .RerunIfEnvChanged akey avalue, .RerunIfEnvChanged bkey bvalue =>
      if akey ≠ bkey then some ("env vars changed: " ++ akey ++ " != " ++ bkey)
      else if avalue ≠ bvalue then
        some ("env var `" ++ akey ++ "` changed: previously " ++
          reprStr bvalue ++ " now " ++ reprStr avalue)
      else none
  | a, b =>
      some ("local fingerprint type has changed (" ++ b.kind ++ " => " ++
        a.kind ++ ")")

/-- The zipped `local` comparison loop of `compare` (line 824). -/
def localsReason : List LocalFingerprint → List LocalFingerprint →
    Option String
  | a :: arest, b :: brest =>
      match localPairReason a b with
      | some e => some e
      | none => localsReason arest brest
  | _, _ => none

/-- The zipped `deps` comparison loop of `compare` (lines 893-911): name
mismatch first, then mismatch of the memoised fingerprint hashes. -/
def depsReason : DepList → DepList → Option String
  | .cons a _afp arest, .cons b _bfp brest =>
      if a.name ≠ b.name then
        some ("unit dependency name changed: `" ++ a.name ++ "` != `" ++
          b.name ++ "`")
      else if _afp.hashValue ≠ _bfp.hashValue then
        some ("unit dependency information changed: new (" ++ a.name ++
          ") != old (" ++ b.name ++ ")")
      else depsReason arest brest
  | _, _ => none

/-- `Fingerprint::compare` (lines 786-922): checks the fields in source order
and produces the first mismatch diagnostic; when nothing differs it still ends
in the catch-all `bail!`. -/
def Fingerprint.compare (self old : Fingerprint) : Except String Unit :=
  if self.rustc ≠ old.rustc then .error "rust compiler has changed"
  else if self.features ≠ old.features then
    .error ("features have changed: " ++ self.features ++ " != " ++
      old.features)
  else if self.target ≠ old.target then
    .error "target configuration has changed"
  else if self.path ≠ old.path then .error "path to the source has changed"
  else if self.profile ≠ old.profile then
    .error "profile configuration has changed"
  else if self.rustflags ≠ old.rustflags then
    .error ("RUSTFLAGS has changed: " ++ reprStr self.rustflags ++ " != " ++
      reprStr old.rustflags)
  else if self.metadata ≠ old.metadata then .error "metadata changed"
  else if self.config ≠ old.config then
    .error "configuration settings have changed"
  else if self.locals.length ≠ old.locals.length then
    .error "local lens changed"
  else match localsReason self.locals old.locals with
    | some e => .error e
    | none =>
      if self.deps.length ≠ old.deps.length then
        .error "number of dependencies has changed"
      else match depsReason self.deps old.deps with
        | some e => .error e
        | none =>
          if ¬self.fs_status.up_to_date then
            .error "current filesystem status shows we're outdated"
          else .error "two fingerprint comparison turned up nothing obvious"

theorem localPairReason_self (a : LocalFingerprint) :
    localPairReason a a = none := by
  cases a <;> simp [localPairReason]

theorem localsReason_self (l : List LocalFingerprint) :
    localsReason l l = none := by
  induction l with
  | nil => rfl
  | cons a rest ih => simp [localsReason, localPairReason_self, ih]

theorem depsReason_self : (d : DepList) → depsReason d d = none
  | .nil => rfl
  | .cons e fp rest => by
      have ih := depsReason_self rest
      simp [depsReason, ih]

set_option maxHeartbeats 1000000 in
theorem compare_ne_ok (a b : Fingerprint) (u : Unit) :
    Fingerprint.compare a b ≠ .ok u := by
  intro h
  unfold Fingerprint.compare at h
  repeat' split at h
  all_goals exact Except.noConfusion h

/-- **C9.** `compare` never returns `Ok`: for every pair of fingerprints it
produces a human-readable reason, and even when every checked field matches
and the filesystem status is up-to-date it returns the catch-all reason. -/
theorem compare_always_returns_a_reason :
    (∀ a b : Fingerprint, ∃ msg, Fingerprint.compare a b = .error msg) ∧
      ∀ a : Fingerprint, a.fs_status.up_to_date = true →
        Fingerprint.compare a a =
          .error "two fingerprint comparison turned up nothing obvious" := by
  constructor
  · intro a b
    cases h : Fingerprint.compare a b with
    | error msg => exact ⟨msg, rfl⟩
    | ok u => exact absurd h (compare_ne_ok a b u)
  · intro a h
    simp [Fingerprint.compare, localsReason_self, depsReason_self, h]

/-- A concrete up-to-date fingerprint for the C9 witness. -/
def upToDateFp : Fingerprint := Fingerprint.new.withFsStatus (.UpToDate [])

theorem compare_always_returns_a_reason_witness :
    upToDateFp.fs_status.up_to_date = true ∧
      Fingerprint.compare upToDateFp upToDateFp =
        .error "two fingerprint comparison turned up nothing obvious" :=
  ⟨rfl, compare_always_returns_a_reason.2 upToDateFp rfl⟩

/-! ## The mtime prober: `find_stale_file` (lines 1637-1699) -/

/-- `StaleFile` (lines 677-685). -/
inductive StaleFile where
  | Missing (p : FPath)
  | Changed (reference : FPath) (reference_mtime : Nat) (stale : FPath)
      (stale_mtime : Nat)
deriving DecidableEq, Repr

/-- The per-build `mtime_cache : HashMap<PathBuf, FileTime>`, as an
association list (later insertions shadow earlier entries). -/
abbrev MtimeCache := List (FPath × Nat)

def MtimeCache.lookup : MtimeCache → FPath → Option Nat
  | [], _ => none
  | (q, m) :: rest, p => if q = p then some m else MtimeCache.lookup rest p

/-- The candidate loop of `find_stale_file` (lines 1651-1692): resolve the
candidate's mtime through the cache (`Entry::Occupied`) or the filesystem
(`Entry::Vacant`, inserting on success); a failed `paths::mtime` is
`Missing`; `path_mtime <= reference_mtime` continues the scan, anything
strictly newer is `Changed`. -/
def findStaleLoop (fs : FPath → Option Nat) (cache : MtimeCache)
    (reference : FPath) (reference_mtime : Nat) :
    List FPath → Option StaleFile × MtimeCache
  | [] => (none, cache)
  | p :: rest =>
    match cache.lookup p with
    | some m =>
        if m ≤ reference_mtime then
          findStaleLoop fs cache reference reference_mtime rest
        else (some (.Changed reference reference_mtime p m), cache)
    | none =>
        match fs p with
        | none => (some (.Missing p), cache)
        | some m =>
            if m ≤ reference_mtime then
              findStaleLoop fs ((p, m) :: cache) reference reference_mtime rest
            else (some (.Changed reference reference_mtime p m),
              (p, m) :: cache)

/-- `find_stale_file` (lines 1637-1699): `paths::mtime(reference)` directly
(no cache), then the candidate loop. -/
def find_stale_file (fs : FPath → Option Nat) (cache : MtimeCache)
    (reference : FPath) (paths : List FPath) :
    Option StaleFile × MtimeCache :=
  match fs reference with
  | none => (some (.Missing reference), cache)
  | some refm => findStaleLoop fs cache reference refm paths

/-- Resolution of a candidate's mtime "from cache or filesystem" (spec §4.2
step 2). -/
def resolveMtime (cache : MtimeCache) (fs : FPath → Option Nat) (p : FPath) :
    Option Nat :=
  match cache.lookup p with
  | some m => some m
  | none => fs p

/-- Modelled from the spec's words (§4.2, step 2): scan the candidates in
order; an unresolvable mtime is `Missing(candidate)`, an mtime strictly
greater than the reference mtime is `Changed`; otherwise keep scanning. -/
def specFindStaleScan (resolve : FPath → Option Nat) (reference : FPath)
    (refm : Nat) : List FPath → Option StaleFile
  | [] => none
  | p :: rest =>
    match resolve p with
    | none => some (.Missing p)
    | some m =>
        if m > refm then some (.Changed reference refm p m)
        else specFindStaleScan resolve reference refm rest

/-- Modelled from the spec's words (§4.2): `Missing(reference)` when the
reference has no retrievable mtime, otherwise the ordered scan; `None` when no
candidate is missing or strictly newer. -/
def spec_find_stale (cache : MtimeCache) (fs : FPath → Option Nat)
    (reference : FPath) (paths : List FPath) : Option StaleFile :=
  match fs reference with
  | none => some (.Missing reference)
  | some refm => specFindStaleScan (resolveMtime cache fs) reference refm paths

theorem findStaleLoop_matches_scan (fs : FPath → Option Nat)
    (reference : FPath) (refm : Nat) (paths : List FPath) :
    ∀ (cache : MtimeCache) (resolve : FPath → Option Nat),
      (∀ p, resolveMtime cache fs p = resolve p) →
      (findStaleLoop fs cache reference refm paths).1 =
        specFindStaleScan resolve reference refm paths := by
  induction paths with
  | nil => intro cache resolve _; rfl
  | cons p rest ih =>
      intro cache resolve hres
      have hp : resolveMtime cache fs p = resolve p := hres p
      unfold findStaleLoop specFindStaleScan
      cases hc : cache.lookup p with
      | some m =>
          have hp' : resolve p = some m := by rw [← hp, resolveMtime, hc]
          simp only [hc, hp']
          by_cases hle : m ≤ refm
          · simp only [if_pos hle, if_neg (show ¬m > refm by omega)]
            exact ih cache resolve hres
          · simp only [if_neg hle, if_pos (show m > refm by omega)]
      | none =>
          have hp' : resolve p = fs p := by rw [← hp, resolveMtime, hc]
          cases hf : fs p with
          | none => simp only [hc, hf, hp'.trans hf]
          | some m =>
              simp only [hc, hf, hp'.trans hf]
              by_cases hle : m ≤ refm
              · simp only [if_pos hle, if_neg (show ¬m > refm by omega)]
                refine ih ((p, m) :: cache) resolve ?_
                intro q
                by_cases hq : p = q
                · subst hq
                  show (match MtimeCache.lookup ((p, m) :: cache) p with
                    | some mm => some mm
                    | none => fs p) = resolve p
                  simp only [MtimeCache.lookup, if_pos rfl]
                  exact (hp'.trans hf).symm
                · show (match MtimeCache.lookup ((p, m) :: cache) q with
                    | some mm => some mm
                    | none => fs q) = resolve q
                  simp only [MtimeCache.lookup, if_neg hq]
                  exact hres q
              · simp only [if_neg hle, if_pos (show m > refm by omega)]

/-- **C2.** `find_stale_file` implements the spec's probe: `Missing(reference)`
when the reference mtime is unretrievable; otherwise the first candidate with
an unresolvable mtime gives `Missing(candidate)` and the first candidate
strictly newer than the reference gives `Changed`; equal mtimes are
up-to-date; otherwise `None`. -/
theorem find_stale_file_matches_spec (fs : FPath → Option Nat)
    (cache : MtimeCache) (reference : FPath) (paths : List FPath) :
    (find_stale_file fs cache reference paths).1 =
      spec_find_stale cache fs reference paths := by
  unfold find_stale_file spec_find_stale
  cases fs reference with
  | none => rfl
  | some refm =>
      exact findStaleLoop_matches_scan fs reference refm paths cache
        (resolveMtime cache fs) (fun _ => rfl)

/-! ## The dep-info codec (lines 1599-1625, 1701-1788) -/

/-- `DepInfoPathType` (lines 1701-1708). -/
inductive DepInfoPathType where
  | PackageRootRelative
  | TargetRootRelative
deriving DecidableEq, Repr

/-- `DepInfoPathType::from_byte` (lines 1710-1717). -/
def DepInfoPathType.from_byte : Nat → Option DepInfoPathType
  | 1 => some .PackageRootRelative
  | 2 => some .TargetRootRelative
  | _ => none

/-- `data.split(|&x| x == 0)`: split a byte string on zero bytes.  As in Rust,
splitting the empty string yields one empty chunk and a trailing zero yields a
trailing empty chunk. -/
def splitOnZero : List Nat → List (List Nat)
  | [] => [[]]
  | 0 :: rest => [] :: splitOnZero rest
  | b :: rest =>
    match splitOnZero rest with
    | chunk :: chunks => (b :: chunk) :: chunks
    | [] => [[b]]

/-- The record decoder of `parse_dep_info` (lines 1608-1623) applied to the
non-empty records, with the `collect::<Result<Vec<_>, _>>` unrolled into
explicit recursion: read the classification byte
(`DepInfoPathType::from_byte`; an invalid byte is `Err("dep-info invalid")`)
and join the path bytes to the appropriate root (`bytes2path` is the identity
on Unix byte strings; the empty-record arm is unreachable after the
`filter`). -/
def decodeJoinRecords (pkg_root target_root : FPath) :
    List (List Nat) → Except String (List FPath)
  | [] => .ok []
  | p :: ps =>
    match p with
    | [] => .error "dep-info invalid"
    | tyb :: rest =>
      match DepInfoPathType.from_byte tyb with
      | none => .error "dep-info invalid"
      | some ty =>
        match decodeJoinRecords pkg_root target_root ps with
        | .error e => .error e
        | .ok paths =>
            .ok ((match ty with
              | .PackageRootRelative => pkg_root ++ rest
              | .TargetRootRelative => target_root ++ rest) :: paths)

/-- The body of `parse_dep_info` after a successful read: split on zero
bytes, drop empty records, decode each record. -/
def decode_dep_info (pkg_root target_root : FPath) (data : List Nat) :
    Except String (List FPath) :=
  decodeJoinRecords pkg_root target_root
    ((splitOnZero data).filter (· ≠ []))

/-- `parse_dep_info` (lines 1599-1625): a failed read of the dep-info file is
`Ok(None)`; a successful read is decoded record by record. -/
def parse_dep_info (fsBytes : FPath → Option (List Nat))
    (pkg_root target_root : FPath) (dep_info : FPath) :
    Except String (Option (List FPath)) :=
  match fsBytes dep_info with
  | none => .ok none
  | some data =>
    match decode_dep_info pkg_root target_root data with
    | .error e => .error e
    | .ok paths => .ok (some paths)

/-- Alias for the free function `find_stale_file`, used inside the
`LocalFingerprint` namespace where the method of the same name shadows it. -/
def probeStaleFile : (FPath → Option Nat) → MtimeCache → FPath →
    List FPath → Option StaleFile × MtimeCache :=
  find_stale_file

/-- `LocalFingerprint::find_stale_file` (lines 693-727). -/
def LocalFingerprint.find_stale_file (lf : LocalFingerprint)
    (fs : FPath → Option Nat) (fsBytes : FPath → Option (List Nat))
    (cache : MtimeCache) (pkg_root target_root : FPath) :
    Except String (Option StaleFile × MtimeCache) :=
  match lf with
  | .CheckDepInfo dep_info =>
    match parse_dep_info fsBytes pkg_root target_root
        (target_root ++ dep_info) with
    | .error e => .error e
    | .ok (some paths) =>
        .ok (probeStaleFile fs cache (target_root ++ dep_info) paths)
    | .ok none => .ok (some (.Missing (target_root ++ dep_info)), cache)
  | .RerunIfChanged output paths =>
      .ok (probeStaleFile fs cache (target_root ++ output)
        (paths.map (pkg_root ++ ·)))
  | .RerunIfEnvChanged _ _ => .ok (none, cache)
  | .Precalculated _ => .ok (none, cache)

/-- The record-framing loop of `translate_dep_info` (lines 1760-1785): for
each classified `(ty, path)` record push the classification byte, the path
bytes, and a terminating zero byte. -/
def encode_dep_info (l : List (Nat × List Nat)) : List Nat :=
  l.flatMap fun r => r.1 :: r.2 ++ [0]

/-- The classification-byte reading of the decoder without the root join:
recovers the `(type, path-bytes)` records. -/
def decodeRawRecords : List (List Nat) → Except String (List (Nat × List Nat))
  | [] => .ok []
  | p :: ps =>
    match p with
    | [] => .error "dep-info invalid"
    | tyb :: rest =>
      match DepInfoPathType.from_byte tyb with
      | none => .error "dep-info invalid"
      | some _ =>
        match decodeRawRecords ps with
        | .error e => .error e
        | .ok rs => .ok ((tyb, rest) :: rs)

def decode_records (data : List Nat) :
    Except String (List (Nat × List Nat)) :=
  decodeRawRecords ((splitOnZero data).filter (· ≠ []))

theorem splitOnZero_append (p : List Nat) (rest : List Nat) (h0 : 0 ∉ p) :
    splitOnZero (p ++ 0 :: rest) = p :: splitOnZero rest := by
  induction p with
  | nil => rfl
  | cons b bs ih =>
      have hb : b ≠ 0 := fun h => h0 (h ▸ List.mem_cons_self b bs)
      have hbs : 0 ∉ bs := fun h => h0 (List.mem_cons_of_mem b h)
      cases b with
      | zero => exact absurd rfl hb
      | succ n =>
          show splitOnZero ((n + 1) :: (bs ++ 0 :: rest)) = _
          rw [splitOnZero, ih hbs]
          exact hb

/-- **C7.** The dep-info codec round-trips: for every record list with
classification bytes in `{1, 2}` and zero-free path bytes, decoding the
encoded byte string recovers exactly the original records, and the full
decoder (`parse_dep_info`'s body) yields the original paths joined to their
classification's root. -/
theorem dep_info_codec_roundtrip (pkg_root target_root : FPath)
    (l : List (Nat × List Nat))
    (hvalid : ∀ r ∈ l, (r.1 = 1 ∨ r.1 = 2) ∧ 0 ∉ r.2) :
    decode_records (encode_dep_info l) = .ok l ∧
      decode_dep_info pkg_root target_root (encode_dep_info l) =
        .ok (l.map fun r =>
          (if r.1 = 1 then pkg_root else target_root) ++ r.2) := by
  induction l with
  | nil => exact ⟨rfl, rfl⟩
  | cons r lrest ih =>
      obtain ⟨hty, hzero⟩ := hvalid r (List.mem_cons_self r lrest)
      have hrest := ih fun q hq => hvalid q (List.mem_cons_of_mem r hq)
      have hne : (0 : Nat) ∉ r.1 :: r.2 := by
        intro h
        rcases List.mem_cons.1 h with h | h
        · rcases hty with h1 | h1 <;> omega
        · exact hzero h
      have hsplit : splitOnZero (encode_dep_info (r :: lrest)) =
          (r.1 :: r.2) :: splitOnZero (encode_dep_info lrest) := by
        show splitOnZero ((r.1 :: r.2 ++ [0]) ++ encode_dep_info lrest) = _
        rw [show (r.1 :: r.2 ++ [0]) ++ encode_dep_info lrest =
          (r.1 :: r.2) ++ 0 :: encode_dep_info lrest by simp]
        exact splitOnZero_append _ _ hne
      have hfilter : ((splitOnZero (encode_dep_info (r :: lrest))).filter
            (· ≠ [])) =
          (r.1 :: r.2) ::
            ((splitOnZero (encode_dep_info lrest)).filter (· ≠ [])) := by
        rw [hsplit, List.filter_cons]
        simp
      have hfrom : DepInfoPathType.from_byte r.1 =
          some (if r.1 = 1 then .PackageRootRelative
            else .TargetRootRelative) := by
        rcases hty with h1 | h1 <;> simp [h1, DepInfoPathType.from_byte]
      constructor
      · unfold decode_records at hrest ⊢
        rw [hfilter, decodeRawRecords, hfrom, hrest.1]
      · unfold decode_dep_info at hrest ⊢
        rw [hfilter, decodeJoinRecords, hfrom, hrest.2]
        rcases hty with h1 | h1 <;> simp [h1]

theorem dep_info_codec_roundtrip_witness :
    (∀ r ∈ [((1 : Nat), [7, 8]), (2, ([] : List Nat))],
        (r.1 = 1 ∨ r.1 = 2) ∧ 0 ∉ r.2) ∧
      decode_records (encode_dep_info [(1, [7, 8]), (2, [])]) =
          .ok [(1, [7, 8]), (2, [])] ∧
        decode_dep_info [30] [40] (encode_dep_info [(1, [7, 8]), (2, [])]) =
          .ok [[30, 7, 8], [40]] :=
  ⟨by decide, (dep_info_codec_roundtrip [30] [40] _ (by decide)).1,
    (dep_info_codec_roundtrip [30] [40] _ (by decide)).2⟩

/-- **C4 (amended).** For `CheckDepInfo`, `find_stale_file` joins `dep_info`
to the target root; when the dep-info file cannot be read it returns
`Missing(dep_info)`; when the file reads but its contents are malformed the
parse error propagates to the caller (it is not turned into `Missing`);
otherwise it probes with `dep_info` as the reference and the parsed paths as
the candidates. -/
theorem check_dep_info_probe (fs : FPath → Option Nat)
    (fsBytes : FPath → Option (List Nat)) (cache : MtimeCache)
    (pkg_root target_root d : FPath) :
    (fsBytes (target_root ++ d) = none →
        (LocalFingerprint.CheckDepInfo d).find_stale_file fs fsBytes cache
            pkg_root target_root =
          .ok (some (.Missing (target_root ++ d)), cache)) ∧
      (∀ paths, parse_dep_info fsBytes pkg_root target_root
            (target_root ++ d) = .ok (some paths) →
          (LocalFingerprint.CheckDepInfo d).find_stale_file fs fsBytes cache
              pkg_root target_root =
            .ok (find_stale_file fs cache (target_root ++ d) paths)) ∧
      ∀ e, parse_dep_info fsBytes pkg_root target_root (target_root ++ d) =
            .error e →
          (LocalFingerprint.CheckDepInfo d).find_stale_file fs fsBytes cache
              pkg_root target_root = .error e := by
  refine ⟨?_, ?_, ?_⟩
  · intro h
    simp only [LocalFingerprint.find_stale_file, parse_dep_info, h]
  · intro paths h
    simp only [LocalFingerprint.find_stale_file, h]
    rfl
  · intro e h
    simp only [LocalFingerprint.find_stale_file, h]

theorem check_dep_info_probe_witness :
    ((fun _ => none : FPath → Option (List Nat)) ([40] ++ [100]) = none) ∧
      (LocalFingerprint.CheckDepInfo [100]).find_stale_file (fun _ => none)
          (fun _ => none) [] [30] [40] =
        .ok (some (.Missing ([40] ++ [100])), []) :=
  ⟨rfl, (check_dep_info_probe (fun _ => none) (fun _ => none) [] [30] [40]
    [100]).1 rfl⟩

/-- **C4 counterexample.** With the dep-info file present but malformed
(classification byte `3`), `find_stale_file` propagates the parse error to
the caller; it does not return `Missing(dep_info)` as the claim states. -/
theorem check_dep_info_malformed_is_error_not_missing :
    (LocalFingerprint.CheckDepInfo [100]).find_stale_file (fun _ => none)
          (fun p => if p = [100] then some [3, 0] else none) [] [] [] =
        .error "dep-info invalid" ∧
      (LocalFingerprint.CheckDepInfo [100]).find_stale_file (fun _ => none)
          (fun p => if p = [100] then some [3, 0] else none) [] [] [] ≠
        .ok (some (.Missing [100]), []) :=
  ⟨rfl, fun h => Except.noConfusion h⟩

/-! ## `check_filesystem` (lines 932-1039) -/

/-- The output-probing loop of `check_filesystem` (lines 946-958): collect
`paths::mtime` of every declared output; the result is `none` at the first
missing output (the early `return Ok(())` that leaves the unit `Stale`).  The
`assert!` that no output repeats is a panic, modelled as an error. -/
def collectOutputMtimes (fs : FPath → Option Nat) :
    List FPath → List (FPath × Nat) →
      Except String (Option (List (FPath × Nat)))
  | [], acc => .ok (some acc)
  | o :: rest, acc =>
    match fs o with
    | none => .ok none
    | some m =>
      if (MtimeCache.lookup acc o).isSome then
        .error "assertion failed: mtimes.insert(output.clone(), mtime).is_none()"
      else collectOutputMtimes fs rest (acc ++ [(o, m)])

/-- `mtimes.iter().max_by_key(|kv| kv.1)`, by value (the path of the maximal
entry is used only for logging). -/
def maxMtime : List (FPath × Nat) → Option Nat
  | [] => none
  | (_, m) :: rest =>
    match maxMtime rest with
    | none => some m
    | some m2 => some (max m m2)

/-- The byte string of the `.rmeta` filename extension. -/
def rmetaExt : List Nat := [46, 114, 109, 101, 116, 97]

/-- `path.extension().and_then(|s| s.to_str()) == Some("rmeta")` on byte
paths. -/
def isRmetaPath (p : FPath) : Bool := rmetaExt.isSuffixOf p

/-- The dependency loop of `check_filesystem` (lines 977-1021): a `Stale`
dependency, or a dependency whose effective mtime is strictly newer than
`own_max`, leaves the unit stale (`ok false`); an `only_requires_rmeta` edge
uses the single `.rmeta` output (panic — an error here — when absent); a
dependency without output mtimes is skipped. -/
def depsUpToDate (own_max : Nat) : DepList → Except String Bool
  | .nil => .ok true
  | .cons e fp rest =>
    match fp.fs_status with
    | .Stale => .ok false
    | .UpToDate dep_mtimes =>
      if e.only_requires_rmeta then
        match dep_mtimes.find? (fun kv => isRmetaPath kv.1) with
        | none => .error "failed to find rmeta"
        | some kv =>
            if kv.2 > own_max then .ok false else depsUpToDate own_max rest
      else
        match maxMtime dep_mtimes with
        | none => depsUpToDate own_max rest
        | some dep_mtime =>
            if dep_mtime > own_max then .ok false
            else depsUpToDate own_max rest

/-- The `local` loop of `check_filesystem` (lines 1027-1032): the first stale
file leaves the unit stale; probe errors propagate; the mtime cache threads
through. -/
def localsUpToDate (fs : FPath → Option Nat)
    (fsBytes : FPath → Option (List Nat)) (pkg_root target_root : FPath) :
    List LocalFingerprint → MtimeCache → Except String (Bool × MtimeCache)
  | [], cache => .ok (true, cache)
  | lf :: rest, cache =>
    match lf.find_stale_file fs fsBytes cache pkg_root target_root with
    | .error e => .error e
    | .ok (some _, cache') => .ok (false, cache')
    | .ok (none, cache') =>
        localsUpToDate fs fsBytes pkg_root target_root rest cache'

/-- `Fingerprint::check_filesystem` (lines 932-1039): requires `fs_status`
stale (the `assert!`), probes outputs, dependencies and `local` entries in
source order, and switches to `UpToDate { mtimes }` only when everything is up
to date.  With no outputs at all it is `UpToDate` immediately (lines
960-971). -/
def Fingerprint.check_filesystem (f : Fingerprint) (fs : FPath → Option Nat)
    (fsBytes : FPath → Option (List Nat)) (cache : MtimeCache)
    (pkg_root target_root : FPath) :
    Except String (Fingerprint × MtimeCache) :=
  if f.fs_status.up_to_date then
    .error "assertion failed: !self.fs_status.up_to_date()"
  else
    match collectOutputMtimes fs f.outputs [] with
    | .error e => .error e
    | .ok none => .ok (f, cache)
    | .ok (some mtimes) =>
      match maxMtime mtimes with
      | none => .ok (f.withFsStatus (.UpToDate mtimes), cache)
      | some own_max =>
        match depsUpToDate own_max f.deps with
        | .error e => .error e
        | .ok false => .ok (f, cache)
        | .ok true =>
          match localsUpToDate fs fsBytes pkg_root target_root
              f.locals cache with
          | .error e => .error e
          | .ok (false, cache') => .ok (f, cache')
          | .ok (true, cache') =>
              .ok (f.withFsStatus (.UpToDate mtimes), cache')

/-! ## The build-script adapter: overridden build scripts -/

/-- `build_script_override_fingerprint` (lines 1456-1471), with the override
output abstracted by its `util::hash_u64` value (the build-script output map
and SipHash live outside src/): the `format!("overridden build state with
hash: {}", …)` payload. -/
def build_script_override_fingerprint (outputHash : Nat) : LocalFingerprint :=
  .Precalculated ("overridden build state with hash: " ++ Nat.repr outputHash)

/-- `calculate_run_custom_build` (lines 1295-1345) for an overridden build
script: `gen_local` yields the single override `Precalculated`, no
dependencies are tracked, `outputs` is empty, `rustc` is the hash of the
compiler's verbose version, and every other field keeps the
`..Fingerprint::new()` defaults. -/
def calculate_run_custom_build_overridden (rustcHash outputHash : Nat) :
    Fingerprint :=
  .mk rustcHash "" 0 0 0 .nil [build_script_override_fingerprint outputHash]
    none [] 0 0 .Stale []

/-! Injectivity of the decimal rendering `Nat.repr`, needed to conclude that
a different override payload hash yields a different `Precalculated` string. -/

theorem toDigitsCore_shift (b : Nat) :
    ∀ (fuel n : Nat) (ds : List Char),
      Nat.toDigitsCore b fuel n ds = Nat.toDigitsCore b fuel n [] ++ ds := by
  intro fuel
  induction fuel with
  | zero => intro n ds; rfl
  | succ fuel ih =>
      intro n ds
      simp only [Nat.toDigitsCore]
      by_cases h : n / b = 0
      · rw [if_pos h, if_pos h]
        rfl
      · rw [if_neg h, if_neg h, ih (n / b) [Nat.digitChar (n % b)],
          ih (n / b) (Nat.digitChar (n % b) :: ds)]
        simp

/-- Evaluate a decimal digit string back to the number. -/
def evalDigitChars (l : List Char) : Nat :=
  l.foldl (fun a c => a * 10 + (c.toNat - 48)) 0

theorem digitChar_toNat (k : Nat) (hk : k < 10) :
    (Nat.digitChar k).toNat = 48 + k := by
  interval_cases k <;> rfl

theorem evalDigitChars_toDigitsCore :
    ∀ (fuel n : Nat), n < fuel →
      evalDigitChars (Nat.toDigitsCore 10 fuel n []) = n := by
  intro fuel
  induction fuel with
  | zero => intro n h; omega
  | succ fuel ih =>
      intro n h
      simp only [Nat.toDigitsCore]
      by_cases h0 : n / 10 = 0
      · rw [if_pos h0]
        have hn : n < 10 := by omega
        simp [evalDigitChars, digitChar_toNat (n % 10) (by omega)]
        omega
      · rw [if_neg h0, toDigitsCore_shift]
        have hrec : n / 10 < fuel := by omega
        have := ih (n / 10) hrec
        simp only [evalDigitChars, List.foldl_append] at this ⊢
        rw [this]
        simp [digitChar_toNat (n % 10) (by omega)]
        omega

theorem nat_repr_injective (m n : Nat) (h : Nat.repr m = Nat.repr n) :
    m = n := by
  have hdata : Nat.toDigits 10 m = Nat.toDigits 10 n :=
    congrArg String.data h
  have hm := evalDigitChars_toDigitsCore (m + 1) m (by omega)
  have hn := evalDigitChars_toDigitsCore (n + 1) n (by omega)
  rw [show Nat.toDigitsCore 10 (m + 1) m [] = Nat.toDigits 10 m from rfl,
    hdata] at hm
  rw [show Nat.toDigitsCore 10 (n + 1) n [] = Nat.toDigits 10 n from rfl]
    at hn
  omega

theorem override_string_injective (h h' : Nat)
    (heq : "overridden build state with hash: " ++ Nat.repr h =
      "overridden build state with hash: " ++ Nat.repr h') : h = h' := by
  have hdata := congrArg String.data heq
  rw [String.data_append, String.data_append] at hdata
  exact nat_repr_injective h h'
    (String.ext (List.append_cancel_left hdata))

/-- **C8.** An overridden build-script execution unit: `local` is the single
`Precalculated` value derived from the hash of the override output, `outputs`
is empty and there are no dependency edges; `check_filesystem` switches it to
`UpToDate { mtimes: {} }` — as it does for every stale unit without outputs —
and a different override payload hash changes the composite-hash input
stream. -/
theorem overridden_build_script_fingerprint (rustcHash outputHash : Nat)
    (fs : FPath → Option Nat) (fsBytes : FPath → Option (List Nat))
    (cache : MtimeCache) (pkg_root target_root : FPath) :
    (calculate_run_custom_build_overridden rustcHash outputHash).locals =
        [.Precalculated ("overridden build state with hash: " ++
          Nat.repr outputHash)] ∧
      (calculate_run_custom_build_overridden rustcHash outputHash).outputs =
        [] ∧
      (calculate_run_custom_build_overridden rustcHash outputHash).deps =
        .nil ∧
      (calculate_run_custom_build_overridden rustcHash
          outputHash).check_filesystem fs fsBytes cache pkg_root target_root =
        .ok ((calculate_run_custom_build_overridden rustcHash
          outputHash).withFsStatus (.UpToDate []), cache) ∧
      (∀ f : Fingerprint, f.outputs = [] → f.fs_status.up_to_date = false →
        f.check_filesystem fs fsBytes cache pkg_root target_root =
          .ok (f.withFsStatus (.UpToDate []), cache)) ∧
      ∀ h h' : Nat, h ≠ h' →
        (calculate_run_custom_build_overridden rustcHash h).hashInput ≠
          (calculate_run_custom_build_overridden rustcHash h').hashInput := by
  refine ⟨rfl, rfl, rfl, rfl, ?_, ?_⟩
  · intro f h1 h2
    unfold Fingerprint.check_filesystem
    rw [h1, h2]
    rfl
  · intro h h' hne heq
    simp only [calculate_run_custom_build_overridden, Fingerprint.hashInput,
      scalarToks, localListToks, LocalFingerprint.toks,
      build_script_override_fingerprint, List.flatMap_cons, List.flatMap_nil,
      depListToks, DepList.length, List.length_cons, List.length_nil,
      List.cons_append, List.nil_append, List.append_nil, List.cons.injEq,
      HashTok.str.injEq, and_true, true_and] at heq
    exact hne (override_string_injective h h' heq)

theorem overridden_build_script_fingerprint_witness :
    ((0 : Nat) ≠ 1) ∧
      (calculate_run_custom_build_overridden 5 0).hashInput ≠
        (calculate_run_custom_build_overridden 5 1).hashInput ∧
      Fingerprint.new.outputs = [] ∧
      Fingerprint.new.fs_status.up_to_date = false ∧
      Fingerprint.new.check_filesystem (fun _ => none) (fun _ => none) [] []
          [] =
        .ok (Fingerprint.new.withFsStatus (.UpToDate []), []) :=
  ⟨by decide,
    (overridden_build_script_fingerprint 5 0 (fun _ => none) (fun _ => none)
      [] [] []).2.2.2.2.2 0 1 (by decide),
    rfl, rfl,
    (overridden_build_script_fingerprint 5 0 (fun _ => none) (fun _ => none)
      [] [] []).2.2.2.2.1 Fingerprint.new rfl rfl⟩

/-! ## The freshness decider: `compare_old_fingerprint` and `prepare_target`
(lines 353-466, 1554-1584) -/

/-- Modelled from the spec: `util::to_hex` (outside src/) renders the 64-bit
composite hash in its 16-hex-digit file form (§6: the hash file's contents is
"the current composite hash in the same 16-hex-digit form"). -/
def hexDigitChar (n : Nat) : Char :=
  if n < 10 then Char.ofNat (48 + n) else Char.ofNat (87 + n)

/-- Modelled from the spec: the 16-hex-digit rendering of a 64-bit hash. -/
def to_hex (h : Nat) : String :=
  ⟨(List.range 16).map fun i => hexDigitChar (h / 16 ^ (15 - i) % 16)⟩

/-- `compare_old_fingerprint` (lines 1554-1584).  The on-disk state is the
short-hash file's contents (`none` models a failed `paths::read`) and the
parsed JSON record (`none` models a failed read or failed deserialization of
the `.json` sibling; both produce an `Err`).  `mtime_on_use` only touches the
hash file's mtime and does not affect the decision, so it is not modelled.
The comparison succeeds exactly when `to_hex` of the new hash equals the
stored short hash and the new fingerprint's `fs_status` is up to date;
otherwise the full record is loaded and `compare` produces the diagnostic
`Err`. -/
def compare_old_fingerprint :
    Option String → Option SerFingerprint → Fingerprint → Except String Unit
  | none, _, _ => .error "failed to read fingerprint"
  | some old_fingerprint_short, jsonFile, new_fingerprint =>
    if to_hex new_fingerprint.hashValue = old_fingerprint_short ∧
        new_fingerprint.fs_status.up_to_date = true then .ok ()
    else
      match jsonFile with
      | none => .error "failed to deserialize json"
      | some old => new_fingerprint.compare old.deserialize

/-- `Freshness` (`job.rs`, imported at lines 333-336). -/
inductive Freshness where
  | Fresh
  | Dirty
deriving DecidableEq, Repr

/-- The two kinds of `Work` returned by `prepare_target`: `Work::noop()` for
a fresh unit, or the completion hook that rewrites the persisted fingerprint
for a dirty one. -/
inductive JobWork where
  | noop
  | writeFingerprintHook
deriving DecidableEq, Repr

/-- The decision core of `prepare_target` (lines 353-466), for a unit whose
fingerprint has already been calculated and filesystem-checked: compare
against the persisted state; when the comparison failed, run the package
source's `verify` hook (modelled by whether it succeeds); return `Fresh` with
the no-op job when the comparison succeeded and `force` is off, and `Dirty`
with the fingerprint-writing completion hook otherwise.  (Truncating the
on-disk short-hash file before returning a dirty job is a filesystem effect
outside this decision.) -/
def prepare_target (shortFile : Option String)
    (jsonFile : Option SerFingerprint) (verifyOk : Bool)
    (fingerprint : Fingerprint) (force : Bool) :
    Except String (Freshness × JobWork) :=
  if (compare_old_fingerprint shortFile jsonFile fingerprint).isOk = false ∧
      verifyOk = false then
    .error "source verification failed"
  else if (compare_old_fingerprint shortFile jsonFile fingerprint).isOk =
        true ∧ force = false then
    .ok (.Fresh, .noop)
  else .ok (.Dirty, .writeFingerprintHook)

theorem compare_isOk_false (a b : Fingerprint) :
    (Fingerprint.compare a b).isOk = false := by
  cases h : Fingerprint.compare a b with
  | ok u => exact absurd h (compare_ne_ok a b u)
  | error e => rfl

/-- **C1.** With `force = false` and a succeeding `verify` hook,
`prepare_target` decides `Fresh` (returning the no-op job) iff the persisted
short-hash file was readable, its contents equal `to_hex` of the newly
computed composite hash, and the new fingerprint's `fs_status` is up-to-date;
when the short-hash file is unreadable the unit is decided `Dirty` (with the
fingerprint-rewriting completion hook). -/
theorem prepare_target_fresh_iff (shortFile : Option String)
    (jsonFile : Option SerFingerprint) (f : Fingerprint) :
    (prepare_target shortFile jsonFile true f false =
          .ok (.Fresh, .noop) ↔
        shortFile = some (to_hex f.hashValue) ∧
          f.fs_status.up_to_date = true) ∧
      (shortFile = none →
        prepare_target shortFile jsonFile true f false =
          .ok (.Dirty, .writeFingerprintHook)) := by
  cases shortFile with
  | none =>
      have hp : prepare_target none jsonFile true f false =
          .ok (.Dirty, .writeFingerprintHook) := rfl
      refine ⟨⟨fun h => ?_, fun h => ?_⟩, fun _ => hp⟩
      · rw [hp] at h
        simp at h
      · exact Option.noConfusion h.1
  | some s =>
      by_cases hcond : to_hex f.hashValue = s ∧ f.fs_status.up_to_date = true
      · have hcmp : compare_old_fingerprint (some s) jsonFile f = .ok () := by
          show (if to_hex f.hashValue = s ∧ f.fs_status.up_to_date = true then
              (Except.ok () : Except String Unit)
            else
              match jsonFile with
              | none => Except.error "failed to deserialize json"
              | some old => f.compare old.deserialize) = Except.ok ()
          rw [if_pos hcond]
        have hp : prepare_target (some s) jsonFile true f false =
            .ok (.Fresh, .noop) := by
          unfold prepare_target
          rw [hcmp]
          rfl
        refine ⟨⟨fun _ => ⟨by rw [hcond.1], hcond.2⟩, fun _ => hp⟩,
          fun h => Option.noConfusion h⟩
      · have hcmpIsOk :
            (compare_old_fingerprint (some s) jsonFile f).isOk = false := by
          show (if to_hex f.hashValue = s ∧ f.fs_status.up_to_date = true then
              (Except.ok () : Except String Unit)
            else
              match jsonFile with
              | none => Except.error "failed to deserialize json"
              | some old => f.compare old.deserialize).isOk = false
          rw [if_neg hcond]
          cases jsonFile with
          | none => rfl
          | some old => exact compare_isOk_false f old.deserialize
        have hp : prepare_target (some s) jsonFile true f false =
            .ok (.Dirty, .writeFingerprintHook) := by
          unfold prepare_target
          rw [if_neg fun h => Bool.noConfusion h.2,
            if_neg fun h => by rw [hcmpIsOk] at h; exact Bool.noConfusion h.1]
        refine ⟨⟨fun h => ?_, fun h => ?_⟩, fun h => Option.noConfusion h⟩
        · rw [hp] at h
          simp at h
        · exact absurd ⟨(Option.some.inj h.1).symm, h.2⟩ hcond

theorem prepare_target_fresh_iff_witness :
    (some (to_hex upToDateFp.hashValue) =
          some (to_hex upToDateFp.hashValue) ∧
        upToDateFp.fs_status.up_to_date = true) ∧
      prepare_target (some (to_hex upToDateFp.hashValue)) none true
          upToDateFp false =
        .ok (.Fresh, .noop) ∧
      prepare_target none none true upToDateFp false =
        .ok (.Dirty, .writeFingerprintHook) :=
  ⟨⟨rfl, rfl⟩,
    (prepare_target_fresh_iff (some (to_hex upToDateFp.hashValue)) none
      upToDateFp).1.2 ⟨rfl, rfl⟩,
    (prepare_target_fresh_iff none none upToDateFp).2 rfl⟩

/-! ## C3: the build-script completion hook and the memoized hash

`prepare_target`'s freshness comparison calls `new_fingerprint.hash()`
(line 1568), filling the `memoized_hash` slot.  The build-script completion
hook (lines 444-460) then replaces `local` — without calling
`clear_memoized` — and `write_fingerprint` (lines 1512-1528) persists
`fingerprint.hash()`, which returns the slot's stale value. -/

/-- `Fingerprint::hash` (lines 771-778) as a state transformer on the
memoized slot: the memoized value when the slot is filled, otherwise
`util::hash_u64(self)` is computed and stored. -/
def Fingerprint.hashSt (f : Fingerprint) : Nat × Fingerprint :=
  match f.memoized_hash with
  | some s => (s, f)
  | none => (hashU64 f.hashInput, f.withMemo (some (hashU64 f.hashInput)))

/-- The build-script completion hook of `prepare_target` (lines 444-460)
followed by `write_fingerprint`'s `fingerprint.hash()` (line 1517): when the
regenerated `local` list is available it is swapped in (the memoized slot is
not touched), and the hash that gets persisted is returned together with the
final record. -/
def build_script_completion (f : Fingerprint)
    (new_local : Option (List LocalFingerprint)) : Nat × Fingerprint :=
  match new_local with
  | some l => (f.withLocals l).hashSt
  | none => f.hashSt

/-- A concrete build-script fingerprint before the script runs: the legacy
`Precalculated` local recorded when no `rerun-if` directives were known. -/
def bsOldFp : Fingerprint :=
  .mk 1 "" 0 0 0 .nil [.Precalculated "1.0.0"] none [] 0 0 .Stale []

/-- The `local` list regenerated after the script ran and emitted
`rerun-if-changed` and `rerun-if-env-changed` directives. -/
def bsNewLocal : List LocalFingerprint :=
  [.RerunIfChanged [10] [[20]], .RerunIfEnvChanged "K" none]

/-- **C3 (code bug).** After the freshness decider has memoized the hash
(`hash()` at line 1568), the build-script completion hook replaces `local`
without invalidating the memoized slot (lines 455-456 assign
`*fingerprint.local.lock().unwrap()` and never call `clear_memoized`), so the
hash persisted by `write_fingerprint` is still the one computed over the old
`local` value, differs from the composite hash of the record it is persisted
with, and fails `write_fingerprint`'s own round-trip debug assertion
`assert_eq!(f.hash(), hash)` (lines 1522-1525). -/
theorem build_script_hook_keeps_stale_memoized_hash :
    (build_script_completion (bsOldFp.hashSt).2 (some bsNewLocal)).1 =
        (bsOldFp.hashSt).1 ∧
      (build_script_completion (bsOldFp.hashSt).2 (some bsNewLocal)).1 ≠
        hashU64
          ((build_script_completion (bsOldFp.hashSt).2
            (some bsNewLocal)).2).hashInput ∧
      ((build_script_completion (bsOldFp.hashSt).2
            (some bsNewLocal)).2).serialize.deserialize.hashValue ≠
        (build_script_completion (bsOldFp.hashSt).2 (some bsNewLocal)).1 :=
  ⟨rfl, by decide, by decide⟩
